import Mathlib

/-!
Shallow embedding of the RAG prescription pipeline implemented in
src/inference-service/rag_prescription_generator.py.

The embedding covers: knowledge-base loading and validation (`_load_data`),
the normalized name-to-entry mapping (`_condition_by_name`, a Python dict
comprehension, so a later duplicate key overwrites an earlier one), the
linear text fallback (`_find_best_by_text`, two sequential passes: condition
names first, then symptoms), the per-drug default table
(`_get_default_medication_details`), the metadata attached to indexed
documents (`_create_vector_store_from_items`), and the main `generate`
pipeline (retrieval result and generation-backend outcome are inputs of the
embedding, since they come from external services).

Modelling conventions: a Python string field that may be missing or empty is
modelled as a `String` where `""` stands for missing-or-empty (both are falsy
in the source's truthiness tests); `dict.get(k, default)` on such a field is
modelled as an `if` on `""`.  Machine integers are `Int`.  Python's
`str.lower` and `str.strip` are modelled character-wise over the string's
character list (ASCII case folding, the standard whitespace set).  The
retriever's result is the list of `condition_name` metadata values of the
retrieved documents (`none` models a document with no metadata or no such
key); the generation backend's outcome is an explicit sum.
-/

namespace RAG

/-- Python `str.lower`, modelled as character-wise lower-casing. -/
def strLower (s : String) : String :=
  String.mk (s.data.map Char.toLower)

/-- Python `str.strip`, modelled as dropping leading and trailing
whitespace characters. -/
def strTrim (s : String) : String :=
  String.mk
    (((s.data.dropWhile fun c => c.isWhitespace).reverse.dropWhile
        fun c => c.isWhitespace).reverse)

/-- Substring containment on character lists: `substrAux needle hay` is true
iff `needle` occurs contiguously in `hay`. -/
def substrAux (needle : List Char) : List Char → Bool
  | [] => needle.isEmpty
  | c :: rest => needle.isPrefixOf (c :: rest) || substrAux needle rest

/-- `strContains hay needle` models Python `needle in hay`. -/
def strContains (hay needle : String) : Bool :=
  substrAux needle.data hay.data

/-- One element of a `suggested_drugs` list: a `{name: ...}` mapping.
`name = ""` models a missing or empty `name` key. -/
structure DrugInfo where
  name : String
  deriving DecidableEq

/-- One knowledge-base record (a JSON mapping).  `condition_name = ""`
models a missing or empty `condition_name`; likewise `general_advice`. -/
structure KBItem where
  condition_name : String
  symptoms : List String
  general_advice : String
  suggested_drugs : List DrugInfo
  deriving DecidableEq

/-- `_normalize` from the source: `s.strip().lower() if s else ""`. -/
def normalize (s : String) : String :=
  if s = "" then "" else strLower (strTrim s)

/-- The `_condition_by_name` dict comprehension from `__init__`:
`{item.get("condition_name", "").strip().lower(): item for item in raw_kb
if item.get("condition_name")}` followed by `.get(key)`.  A Python dict
comprehension assigns keys in iteration order, so when two items share a
normalized name the later assignment overwrites the earlier one; the fold
reproduces exactly that: the accumulator is replaced whenever a later item
matches the key. -/
def conditionByName (kb : List KBItem) (key : String) : Option KBItem :=
  kb.foldl
    (fun acc item =>
      if item.condition_name ≠ "" ∧ strLower (strTrim item.condition_name) = key
      then some item else acc)
    none

/-- First pass of `_find_best_by_text`: scan items in order and return the
first whose lower-cased condition name is a non-empty substring of `t`
(`t` is the already lower-cased query text). -/
def findByName (t : String) : List KBItem → Option KBItem
  | [] => none
  | item :: rest =>
    if strLower item.condition_name ≠ "" ∧
        strContains t (strLower item.condition_name) = true
    then some item else findByName t rest

/-- Second pass of `_find_best_by_text`: scan items in order and return the
first having some non-empty symptom whose lower-casing is a substring of
`t`. -/
def findBySymptom (t : String) : List KBItem → Option KBItem
  | [] => none
  | item :: rest =>
    if item.symptoms.any (fun s => !(s == "") && strContains t (strLower s))
    then some item else findBySymptom t rest

/-- `_find_best_by_text(text)`: lower-case the query, run the condition-name
pass over the whole knowledge base, and only if it found nothing run the
symptom pass. -/
def findBestByText (kb : List KBItem) (text : String) : Option KBItem :=
  match findByName (strLower text) kb with
  | some item => some item
  | none => findBySymptom (strLower text) kb

/-- The detail fields of a medication record (everything except the name). -/
structure MedDetails where
  dosage : String
  frequency : String
  timing : String
  duration : String
  quantity : Int
  instructions : String
  deriving DecidableEq

/-- A medication record as assembled by `generate`:
`{"name": drug_name, **med_details}`. -/
structure Medication where
  name : String
  dosage : String
  frequency : String
  timing : String
  duration : String
  quantity : Int
  instructions : String
  deriving DecidableEq

/-- The fixed `medication_defaults` table of
`_get_default_medication_details`, verbatim from the source. -/
def medicationDefaults : List (String × MedDetails) :=
  [ ("Acetaminophen",
     ⟨"500mg", "every 6 hours", "as needed for fever", "3 days", 12,
      "Do not exceed 4000mg per day."⟩),
    ("Ibuprofen",
     ⟨"400mg", "twice daily", "with meals", "5 days", 10,
      "Take with food to prevent stomach upset."⟩),
    ("Cetirizine",
     ⟨"10mg", "once daily", "in the evening", "7 days", 7,
      "May cause drowsiness."⟩),
    ("Loratadine",
     ⟨"10mg", "once daily", "in the morning", "7 days", 7,
      "Non-drowsy formula."⟩),
    ("Antacid",
     ⟨"10ml", "thrice daily", "after meals", "5 days", 1,
      "Shake well before use."⟩),
    ("Ondansetron",
     ⟨"4mg", "twice daily", "as needed for nausea", "3 days", 6,
      "Allow to dissolve on tongue."⟩),
    ("Loperamide",
     ⟨"2mg", "after each loose stool", "as needed", "2 days", 8,
      "Do not exceed 16mg per day."⟩),
    ("Naproxen",
     ⟨"250mg", "twice daily", "with meals", "5 days", 10,
      "For pain and inflammation."⟩),
    ("Hydrocortisone Cream",
     ⟨"1% cream", "twice daily", "morning and evening", "7 days", 1,
      "Apply a thin layer to the affected area."⟩),
    ("Dextromethorphan Syrup",
     ⟨"10ml", "every 6 hours", "as needed for cough", "5 days", 1,
      "For dry, non-productive cough only."⟩) ]

/-- The generic default returned for a drug name absent from the table. -/
def genericDetails : MedDetails :=
  ⟨"As directed", "As directed", "As directed", "As directed", 1,
   "Follow physician\x27s instructions."⟩

/-- Exact-key association lookup, modelling a Python dict built from the
listed pairs (the table's keys are pairwise distinct, so insertion order is
irrelevant here). -/
def lookupDetails : List (String × MedDetails) → String → Option MedDetails
  | [], _ => none
  | (k, v) :: rest, n => if n = k then some v else lookupDetails rest n

/-- `_get_default_medication_details(drug_name)`: exact-key lookup in the
fixed table, with the generic default for unknown names. -/
def getDefaultMedicationDetails (drug_name : String) : MedDetails :=
  (lookupDetails medicationDefaults drug_name).getD genericDetails

/-- Pairing a drug name with its detail fields:
`{"name": drug_name, **med_details}`. -/
def withName (n : String) (d : MedDetails) : Medication :=
  ⟨n, d.dosage, d.frequency, d.timing, d.duration, d.quantity,
   d.instructions⟩

/-- The fallback loop of `generate` step 6: for each suggested-drug record,
if its `name` is truthy, append one medication built from the default
table. -/
def fallbackMedications (drugs : List DrugInfo) : List Medication :=
  drugs.filterMap (fun d =>
    if d.name ≠ "" then
      some (withName d.name (getDefaultMedicationDetails d.name))
    else none)

/-- Outcome of invoking the RAG chain (generation backend plus JSON
parsing): `exn` models any raised exception (timeout, malformed JSON,
parser failure); `ok none` models a falsy parsed response or one lacking a
`medications` key; `ok (some ms)` models a truthy response carrying a
`medications` field with value `ms`. -/
inductive LLMOutcome where
  | exn : LLMOutcome
  | ok : Option (List Medication) → LLMOutcome
  deriving DecidableEq

/-- The result of `generate`: either an error payload `{"error": msg}` or a
success payload `{"general_advice": ..., "medications": ..., "condition":
...}` (in that field order below). -/
inductive GenResult where
  | error : String → GenResult
  | ok : String → List Medication → String → GenResult
  deriving DecidableEq

/-- `retrieved_meta.get("condition_name", "Unknown")` for the top retrieved
document: `none` models absent metadata or an absent key. -/
def metaName (m : Option String) : String :=
  m.getD "Unknown"

/-- `full_context.get("condition_name", "Unknown")` on an entry. -/
def itemConditionName (item : KBItem) : String :=
  if item.condition_name = "" then "Unknown" else item.condition_name

/-- `full_context.get("general_advice", "Follow medication instructions
carefully.")` on an entry. -/
def itemAdvice (item : KBItem) : String :=
  if item.general_advice = "" then "Follow medication instructions carefully."
  else item.general_advice

/-- Steps 4-7 of `generate`, after a full context `fc` has been resolved and
a display condition name fixed: empty `suggested_drugs` short-circuits to a
successful result with no medications; otherwise a response carrying a
`medications` key is used as-is, and every other outcome is absorbed by the
per-drug fallback loop. -/
def generateWithContext (fc : KBItem) (condition_name : String)
    (llm : LLMOutcome) : GenResult :=
  if fc.suggested_drugs.isEmpty then
    GenResult.ok (itemAdvice fc) [] condition_name
  else
    match llm with
    | LLMOutcome.ok (some ms) => GenResult.ok (itemAdvice fc) ms condition_name
    | _ => GenResult.ok (itemAdvice fc)
        (fallbackMedications fc.suggested_drugs) condition_name

/-- The `generate` pipeline. `retrieved` is the list of condition-name
metadata of the documents returned by the retriever, `llm` the outcome of
the RAG chain.  Steps: (1) empty retrieval returns an error at once;
(2) the top hit's metadata name is normalized and rehydrated through the
name map; (3) on rehydration failure the linear text scan runs, and its
failure is the second error exit; remaining steps are
`generateWithContext`. -/
def generate (kb : List KBItem) (retrieved : List (Option String))
    (llm : LLMOutcome) (transcription : String) : GenResult :=
  match retrieved with
  | [] =>
    GenResult.error "Could not find a matching condition in the knowledge base."
  | top :: _ =>
    match conditionByName kb (normalize (metaName top)) with
    | some fc => generateWithContext fc (metaName top) llm
    | none =>
      match findBestByText kb transcription with
      | none =>
        GenResult.error
          "Could not determine the medical context from the transcription."
      | some fc => generateWithContext fc (itemConditionName fc) llm

/-- `item.get('condition_name', 'Unknown')` as used when building the
indexed document's metadata in `_create_vector_store_from_items`. -/
def docMetadataName (item : KBItem) : String :=
  if item.condition_name = "" then "Unknown" else item.condition_name

/-- A raw record of the knowledge-base JSON array: either not a mapping at
all, or a mapping (with `condition_name = ""` modelling a missing or empty
name). -/
inductive RawRecord where
  | notDict : RawRecord
  | dict : KBItem → RawRecord
  deriving DecidableEq

/-- The knowledge-base file's content as seen by `_load_data`: text that is
not valid JSON, valid JSON that is not an array, or a JSON array of raw
records. -/
inductive FileContent where
  | invalidJson : FileContent
  | jsonNonList : FileContent
  | jsonList : List RawRecord → FileContent
  deriving DecidableEq

/-- The exceptions `_load_data` (together with the path check in
`__init__`) can raise. -/
inductive LoadError where
  | fileNotFound : LoadError
  | jsonDecodeError : LoadError
  | notAList : LoadError
  deriving DecidableEq

/-- The per-record filter of `_load_data`: keep a record iff it is a
mapping whose `condition_name` is truthy. -/
def keepRecord : RawRecord → Option KBItem
  | RawRecord.notDict => none
  | RawRecord.dict item =>
    if item.condition_name ≠ "" then some item else none

/-- `_load_data` plus the `os.path.exists` check of `__init__`: missing
path and malformed content raise; a well-formed array is filtered
record-by-record and the survivors returned (with no emptiness check). -/
def loadData (pathExists : Bool) (content : FileContent) :
    Except LoadError (List KBItem) :=
  if !pathExists then Except.error LoadError.fileNotFound
  else
    match content with
    | FileContent.invalidJson => Except.error LoadError.jsonDecodeError
    | FileContent.jsonNonList => Except.error LoadError.notAList
    | FileContent.jsonList records => Except.ok (records.filterMap keepRecord)

/-- Modelled from the spec: the number of administrations per day implied
by a frequency string, for the frequency phrases the spec's quantity
invariant speaks about; `none` when the phrase implies no fixed per-day
count. -/
def impliedPerDay (frequency : String) : Option Int :=
  if frequency = "once daily" then some 1
  else if frequency = "twice daily" then some 2
  else if frequency = "thrice daily" then some 3
  else if frequency = "every 6 hours" then some 4
  else none

/-- Modelled from the spec: the number of days implied by a duration
string. -/
def impliedDays (duration : String) : Option Int :=
  if duration = "2 days" then some 2
  else if duration = "3 days" then some 3
  else if duration = "5 days" then some 5
  else if duration = "7 days" then some 7
  else none

/-- Modelled from the spec: the quantity the spec's invariant demands,
(administrations per day) times (days), when both factors are implied. -/
def impliedQuantity (d : MedDetails) : Option Int :=
  match impliedPerDay d.frequency, impliedDays d.duration with
  | some a, some b => some (a * b)
  | _, _ => none

/-- Modelled from the spec (section 4.3 step 3 and claim C8): a single
interleaved linear scan — for each entry in order, return it if its
condition name matches as a substring, otherwise if any symptom matches;
the first entry matching by either criterion wins. -/
def findBestByTextSpec (kb : List KBItem) (text : String) : Option KBItem :=
  kb.find? (fun item =>
    (!(strLower item.condition_name == "") &&
      strContains (strLower text) (strLower item.condition_name))
    || item.symptoms.any
        (fun s => !(s == "") && strContains (strLower text) (strLower s)))

/-- The condition-name match predicate of the fallback scan, for an
already lower-cased query `t`. -/
def nameHit (t : String) (item : KBItem) : Prop :=
  strLower item.condition_name ≠ "" ∧
    strContains t (strLower item.condition_name) = true

/-- The symptom match predicate of the fallback scan, for an already
lower-cased query `t`. -/
def symptomHit (t : String) (item : KBItem) : Prop :=
  ∃ s ∈ item.symptoms, s ≠ "" ∧ strContains t (strLower s) = true

/-- Sample entry: the spec's Migraine scenario record. -/
def migraineItem : KBItem :=
  ⟨"Migraine", ["headache", "nausea"], "Rest in a dark room.",
   [DrugInfo.mk "Ibuprofen"]⟩

/-- Sample entry with a symptom suited to substring queries. -/
def fluItem : KBItem :=
  ⟨"Flu", ["fever", "cough"], "Stay hydrated.",
   [DrugInfo.mk "Acetaminophen"]⟩

/-- Sample entry whose normalized name collides with `coldItemB`. -/
def coldItemA : KBItem :=
  ⟨"Common Cold", ["runny nose"], "Rest.", [DrugInfo.mk "Cetirizine"]⟩

/-- Sample entry whose normalized name collides with `coldItemA`. -/
def coldItemB : KBItem :=
  ⟨" common cold ", ["sneezing"], "Fluids.", [DrugInfo.mk "Loratadine"]⟩

/-- Sample entry with an empty `suggested_drugs` list. -/
def noDrugItem : KBItem :=
  ⟨"Fatigue", ["tired"], "Sleep more.", []⟩

/-- Sample entry whose only suggested drug has an empty name. -/
def emptyNameDrugItem : KBItem :=
  ⟨"Mystery", ["dizzy"], "Hydrate.", [DrugInfo.mk ""]⟩

/-- Sample entry matching only by symptom, placed before `fluNameItem`. -/
def coughOnlyItem : KBItem :=
  ⟨"Migraine Aura", ["cough"], "Rest.", []⟩

/-- Sample entry matching by condition name. -/
def fluNameItem : KBItem :=
  ⟨"Flu", [], "Fluids.", []⟩

/-! ### Helper lemmas (shared, not attached to any claim) -/

/-- A non-empty `suggested_drugs` list together with any backend outcome
other than a response carrying a `medications` key makes `generate` build
the result out of the per-drug fallback table. -/
theorem generateWithContext_fallback (fc : KBItem) (cn : String)
    (llm : LLMOutcome) (h : fc.suggested_drugs ≠ [])
    (hllm : ∀ ms, llm ≠ LLMOutcome.ok (some ms)) :
    generateWithContext fc cn llm
      = GenResult.ok (itemAdvice fc) (fallbackMedications fc.suggested_drugs)
          cn := by
  unfold generateWithContext
  rw [if_neg (by simpa [List.isEmpty_iff] using h)]
  cases llm with
  | exn => rfl
  | ok o =>
    cases o with
    | none => rfl
    | some ms => exact absurd rfl (hllm ms)

/-- A response carrying a `medications` key is used as-is when the entry
has suggested drugs. -/
theorem generateWithContext_success (fc : KBItem) (cn : String)
    (ms : List Medication) (h : fc.suggested_drugs ≠ []) :
    generateWithContext fc cn (LLMOutcome.ok (some ms))
      = GenResult.ok (itemAdvice fc) ms cn := by
  unfold generateWithContext
  rw [if_neg (by simpa [List.isEmpty_iff] using h)]

/-- Unfolding `generate` when the top hit rehydrates. -/
theorem generate_rehydrated {kb : List KBItem} {top : Option String}
    {rest : List (Option String)} {llm : LLMOutcome} {t : String}
    {fc : KBItem} (h : conditionByName kb (normalize (metaName top)) = some fc) :
    generate kb (top :: rest) llm t = generateWithContext fc (metaName top) llm := by
  simp only [generate]
  rw [h]

/-- Unfolding `generate` when rehydration of the top hit fails. -/
theorem generate_unhydrated {kb : List KBItem} {top : Option String}
    {rest : List (Option String)} {llm : LLMOutcome} {t : String}
    (h : conditionByName kb (normalize (metaName top)) = none) :
    generate kb (top :: rest) llm t =
      match findBestByText kb t with
      | none =>
        GenResult.error
          "Could not determine the medical context from the transcription."
      | some fc => generateWithContext fc (itemConditionName fc) llm := by
  simp only [generate]
  rw [h]

/-- A successful exact-key lookup finds a stored pair. -/
theorem lookupDetails_mem {l : List (String × MedDetails)} {k : String}
    {v : MedDetails} (h : lookupDetails l k = some v) : (k, v) ∈ l := by
  induction l with
  | nil => cases h
  | cons p rest ih =>
    obtain ⟨pk, pv⟩ := p
    rw [lookupDetails] at h
    by_cases hk : k = pk
    · rw [if_pos hk] at h
      cases h
      rw [hk]
      exact List.mem_cons_self _ _
    · rw [if_neg hk] at h
      exact List.mem_cons_of_mem _ (ih h)

/-- If `findBySymptom` finds nothing, no item's symptom test succeeds. -/
theorem findBySymptom_eq_none {t : String} {kb : List KBItem}
    (h : findBySymptom t kb = none) :
    ∀ item ∈ kb,
      item.symptoms.any (fun s => !(s == "") && strContains t (strLower s))
        = false := by
  induction kb with
  | nil => simp
  | cons a l ih =>
    rw [findBySymptom] at h
    by_cases ha :
        a.symptoms.any (fun s => !(s == "") && strContains t (strLower s)) = true
    · rw [if_pos ha] at h
      exact absurd h (by simp)
    · rw [if_neg ha] at h
      intro item hitem
      rcases List.mem_cons.mp hitem with rfl | hmem
      · simpa using ha
      · exact ih h item hmem

instance (t : String) (item : KBItem) : Decidable (nameHit t item) := by
  unfold nameHit
  infer_instance

instance (t : String) (item : KBItem) : Decidable (symptomHit t item) := by
  unfold symptomHit
  infer_instance

/-- Appending one item to the knowledge base: the dict-comprehension map
prefers the appended (later) item whenever it matches the key. -/
theorem conditionByName_append (kb : List KBItem) (e : KBItem) (key : String) :
    conditionByName (kb ++ [e]) key =
      if e.condition_name ≠ "" ∧ strLower (strTrim e.condition_name) = key
      then some e else conditionByName kb key := by
  simp only [conditionByName, List.foldl_append, List.foldl_cons, List.foldl_nil]

/-- A successful map lookup returns a stored entry whose truthy name
normalizes to the key. -/
theorem conditionByName_mem {kb : List KBItem} {key : String} {e2 : KBItem}
    (h : conditionByName kb key = some e2) :
    e2 ∈ kb ∧ e2.condition_name ≠ "" ∧
      strLower (strTrim e2.condition_name) = key := by
  induction kb using List.reverseRecOn with
  | nil => simp [conditionByName] at h
  | append_singleton l a ih =>
    rw [conditionByName_append] at h
    by_cases hc : a.condition_name ≠ "" ∧ strLower (strTrim a.condition_name) = key
    · rw [if_pos hc] at h
      injection h with h
      subst h
      exact ⟨by simp, hc.1, hc.2⟩
    · rw [if_neg hc] at h
      obtain ⟨h1, h2, h3⟩ := ih h
      exact ⟨by simp [h1], h2, h3⟩

/-- Every stored entry with a truthy name makes the lookup of its
normalized name succeed (with some entry, not necessarily itself). -/
theorem conditionByName_isSome {kb : List KBItem} {e : KBItem}
    (he : e ∈ kb) (hv : e.condition_name ≠ "") :
    conditionByName kb (strLower (strTrim e.condition_name)) ≠ none := by
  induction kb using List.reverseRecOn with
  | nil => simp at he
  | append_singleton l a ih =>
    rw [conditionByName_append]
    by_cases hc : a.condition_name ≠ "" ∧
        strLower (strTrim a.condition_name) = strLower (strTrim e.condition_name)
    · rw [if_pos hc]
      simp
    · rw [if_neg hc]
      rcases List.mem_append.mp he with h | h
      · exact ih h
      · have ha : e = a := by simpa using h
        subst ha
        exact absurd ⟨hv, rfl⟩ hc

/-- The fallback loop is the same as filtering out falsy-named drugs and
formatting each survivor. -/
theorem fallbackMedications_eq_map_filter (ds : List DrugInfo) :
    fallbackMedications ds
      = (ds.filter (fun d => !(d.name == ""))).map
          (fun d => withName d.name (getDefaultMedicationDetails d.name)) := by
  induction ds with
  | nil => rfl
  | cons d rest ih =>
    by_cases h : d.name = ""
    · simp only [fallbackMedications] at ih ⊢
      rw [List.filterMap_cons_none (by rw [if_neg]; simp [h]),
        List.filter_cons, if_neg (by simp [h])]
      exact ih
    · simp only [fallbackMedications] at ih ⊢
      rw [List.filterMap_cons_some (by rw [if_pos h]),
        List.filter_cons, if_pos (by simp [h]), List.map_cons]
      rw [ih]

/-- If `findByName` finds nothing, no item matches by name. -/
theorem findByName_eq_none_iff {t : String} {kb : List KBItem} :
    findByName t kb = none ↔ ∀ x ∈ kb, ¬ nameHit t x := by
  induction kb with
  | nil => simp [findByName]
  | cons a l ih =>
    rw [findByName]
    by_cases h : strLower a.condition_name ≠ "" ∧
        strContains t (strLower a.condition_name) = true
    · rw [if_pos h]
      constructor
      · intro hc
        cases hc
      · intro hall
        exact absurd (show nameHit t a from h) (hall a (List.mem_cons_self a l))
    · rw [if_neg h, ih]
      constructor
      · intro hall x hx
        rcases List.mem_cons.mp hx with rfl | hx
        · exact fun hc => h hc
        · exact hall x hx
      · intro hall x hx
        exact hall x (List.mem_cons_of_mem _ hx)

/-- The name pass returns exactly the first name-matching entry. -/
theorem findByName_eq_some_iff {t : String} {kb : List KBItem} {e : KBItem} :
    findByName t kb = some e ↔
      ∃ pre post, kb = pre ++ e :: post ∧ nameHit t e ∧
        ∀ x ∈ pre, ¬ nameHit t x := by
  induction kb with
  | nil =>
    constructor
    · intro h
      cases h
    · rintro ⟨pre, post, hdecomp, -, -⟩
      exact absurd hdecomp (by simp)
  | cons a l ih =>
    rw [findByName]
    by_cases h : strLower a.condition_name ≠ "" ∧
        strContains t (strLower a.condition_name) = true
    · rw [if_pos h]
      constructor
      · intro hh
        injection hh with hh
        subst hh
        exact ⟨[], l, rfl, h, by simp⟩
      · rintro ⟨pre, post, hdecomp, he, hpre⟩
        cases pre with
        | nil =>
          simp only [List.nil_append, List.cons.injEq] at hdecomp
          rw [hdecomp.1]
        | cons p ps =>
          simp only [List.cons_append, List.cons.injEq] at hdecomp
          obtain ⟨rfl, -⟩ := hdecomp
          exact absurd (show nameHit t a from h) (hpre a (List.mem_cons_self a ps))
    · rw [if_neg h, ih]
      constructor
      · rintro ⟨pre, post, rfl, he, hpre⟩
        refine ⟨a :: pre, post, rfl, he, ?_⟩
        intro x hx
        rcases List.mem_cons.mp hx with rfl | hx
        · exact fun hc => h hc
        · exact hpre x hx
      · rintro ⟨pre, post, hdecomp, he, hpre⟩
        cases pre with
        | nil =>
          simp only [List.nil_append, List.cons.injEq] at hdecomp
          obtain ⟨rfl, rfl⟩ := hdecomp
          exact absurd he h
        | cons p ps =>
          simp only [List.cons_append, List.cons.injEq] at hdecomp
          obtain ⟨rfl, rfl⟩ := hdecomp
          exact ⟨ps, post, rfl, he, fun x hx => hpre x (List.mem_cons_of_mem _ hx)⟩

/-- The boolean symptom test of the scan agrees with `symptomHit`. -/
theorem symptomAny_iff {t : String} {item : KBItem} :
    item.symptoms.any (fun s => !(s == "") && strContains t (strLower s)) = true
      ↔ symptomHit t item := by
  simp [symptomHit, List.any_eq_true, Bool.and_eq_true, Bool.not_eq_true',
    beq_eq_false_iff_ne]

/-- The symptom pass returns exactly the first symptom-matching entry. -/
theorem findBySymptom_eq_some_iff {t : String} {kb : List KBItem} {e : KBItem} :
    findBySymptom t kb = some e ↔
      ∃ pre post, kb = pre ++ e :: post ∧ symptomHit t e ∧
        ∀ x ∈ pre, ¬ symptomHit t x := by
  induction kb with
  | nil =>
    constructor
    · intro h
      cases h
    · rintro ⟨pre, post, hdecomp, -, -⟩
      exact absurd hdecomp (by simp)
  | cons a l ih =>
    rw [findBySymptom]
    by_cases h :
        a.symptoms.any (fun s => !(s == "") && strContains t (strLower s)) = true
    · rw [if_pos h]
      constructor
      · intro hh
        injection hh with hh
        subst hh
        exact ⟨[], l, rfl, symptomAny_iff.mp h, by simp⟩
      · rintro ⟨pre, post, hdecomp, he, hpre⟩
        cases pre with
        | nil =>
          simp only [List.nil_append, List.cons.injEq] at hdecomp
          rw [hdecomp.1]
        | cons p ps =>
          simp only [List.cons_append, List.cons.injEq] at hdecomp
          obtain ⟨rfl, -⟩ := hdecomp
          exact absurd (symptomAny_iff.mp h) (hpre a (List.mem_cons_self a ps))
    · rw [if_neg h, ih]
      constructor
      · rintro ⟨pre, post, rfl, he, hpre⟩
        refine ⟨a :: pre, post, rfl, he, ?_⟩
        intro x hx
        rcases List.mem_cons.mp hx with rfl | hx
        · exact fun hc => h (symptomAny_iff.mpr hc)
        · exact hpre x hx
      · rintro ⟨pre, post, hdecomp, he, hpre⟩
        cases pre with
        | nil =>
          simp only [List.nil_append, List.cons.injEq] at hdecomp
          obtain ⟨rfl, rfl⟩ := hdecomp
          exact absurd (symptomAny_iff.mpr he) h
        | cons p ps =>
          simp only [List.cons_append, List.cons.injEq] at hdecomp
          obtain ⟨rfl, rfl⟩ := hdecomp
          exact ⟨ps, post, rfl, he, fun x hx => hpre x (List.mem_cons_of_mem _ hx)⟩

/-! ### Claim theorems -/

/-- C1, counterexample: a query for which the semantic index returns no
documents makes `generate` fail immediately with the no-match error, even
though the linear substring scan would resolve the query to the
knowledge-base entry through its symptom — the claimed fallback does not
happen. -/
theorem C1_counterexample :
    generate [migraineItem] [] LLMOutcome.exn "headache"
      = GenResult.error
          "Could not find a matching condition in the knowledge base." ∧
    findBestByText [migraineItem] "headache" = some migraineItem := by
  constructor
  · rfl
  · decide

/-- C1 (amended): when the semantic index returns no documents, `generate`
fails immediately with the no-match error and never reaches the linear
scan; the linear substring scan runs only when retrieval returned a top hit
whose rehydration through the name map fails, and in that situation a query
whose lower-casing contains one of an entry's non-empty symptoms is
resolved to some knowledge-base entry rather than failing. -/
theorem C1_no_docs_error_and_fallback_only_on_rehydration_failure :
    (∀ (kb : List KBItem) (llm : LLMOutcome) (t : String),
      generate kb [] llm t
        = GenResult.error
            "Could not find a matching condition in the knowledge base.") ∧
    (∀ (kb : List KBItem) (top : Option String) (rest : List (Option String))
        (llm : LLMOutcome) (t : String),
      conditionByName kb (normalize (metaName top)) = none →
      generate kb (top :: rest) llm t =
        match findBestByText kb t with
        | none =>
          GenResult.error
            "Could not determine the medical context from the transcription."
        | some fc => generateWithContext fc (itemConditionName fc) llm) ∧
    (∀ (kb : List KBItem) (t : String) (e : KBItem) (s : String),
      e ∈ kb → s ∈ e.symptoms → s ≠ "" →
      strContains (strLower t) (strLower s) = true →
      findBestByText kb t ≠ none) := by
  refine ⟨fun kb llm t => rfl, fun kb top rest llm t h => generate_unhydrated h,
    fun kb t e s he hs hne hsub => ?_⟩
  unfold findBestByText
  cases hn : findByName (strLower t) kb with
  | some item => simp
  | none =>
    cases hsym : findBySymptom (strLower t) kb with
    | some item => simp
    | none =>
      have := findBySymptom_eq_none hsym e he
      rw [List.any_eq_false] at this
      have hcontra := this s hs
      simp only [Bool.and_eq_true, Bool.not_eq_true', beq_eq_false_iff_ne] at hcontra
      exact absurd ⟨hne, hsub⟩ hcontra

/-- C1, witness: concrete instances of the amended statement — empty
retrieval yields the immediate no-match error; a non-rehydratable top hit
over an empty knowledge base yields the context error; and a symptom query
against an entry containing that symptom is resolved by the scan. -/
theorem C1_witness :
    generate [] [] LLMOutcome.exn "x"
      = GenResult.error
          "Could not find a matching condition in the knowledge base." ∧
    generate [] [none] LLMOutcome.exn "x"
      = GenResult.error
          "Could not determine the medical context from the transcription." ∧
    findBestByText [fluItem] "cough" ≠ none := by
  refine ⟨C1_no_docs_error_and_fallback_only_on_rehydration_failure.1 []
    LLMOutcome.exn "x", ?_, ?_⟩
  · have h := C1_no_docs_error_and_fallback_only_on_rehydration_failure.2.1
      [] none [] LLMOutcome.exn "x" (by rfl)
    simpa [findBestByText, findByName, findBySymptom] using h
  · exact C1_no_docs_error_and_fallback_only_on_rehydration_failure.2.2
      [fluItem] "cough" fluItem "cough" (by simp) (by decide) (by decide)
      (by decide)

/-- C2, counterexample: the backend answers with a present but empty
`medications` field; the result is a success with an empty medication list
— the per-drug fallback table (which would yield a non-empty list) is not
consulted, contradicting the claim that an empty `medications` field
triggers the fallback. -/
theorem C2_counterexample :
    generate [migraineItem] [some "Migraine"] (LLMOutcome.ok (some []))
        "headache"
      = GenResult.ok "Rest in a dark room." [] "Migraine" ∧
    fallbackMedications migraineItem.suggested_drugs ≠ [] := by
  constructor
  · decide
  · decide

/-- C2 (amended): for a resolved entry with non-empty `suggested_drugs`, a
backend exception (JSON-parsing or schema failure, timeout) or a falsy
response or one lacking a `medications` key is absorbed internally — the
result is built from the per-drug fallback table and is a success, never an
error; but a response with a present (possibly empty) `medications` field
is accepted as-is, so an empty `medications` field yields an empty
medication list without the fallback table. -/
theorem C2_generation_failure_absorbed (fc : KBItem) (cn : String)
    (h : fc.suggested_drugs ≠ []) :
    generateWithContext fc cn LLMOutcome.exn
      = GenResult.ok (itemAdvice fc) (fallbackMedications fc.suggested_drugs)
          cn ∧
    generateWithContext fc cn (LLMOutcome.ok none)
      = GenResult.ok (itemAdvice fc) (fallbackMedications fc.suggested_drugs)
          cn ∧
    ∀ ms, generateWithContext fc cn (LLMOutcome.ok (some ms))
      = GenResult.ok (itemAdvice fc) ms cn := by
  refine ⟨generateWithContext_fallback fc cn LLMOutcome.exn h
      (by intro ms hc; cases hc),
    generateWithContext_fallback fc cn (LLMOutcome.ok none) h
      (by intro ms hc; cases hc),
    fun ms => generateWithContext_success fc cn ms h⟩

/-- C2, witness: the amended statement applied to the Migraine entry. -/
theorem C2_witness :
    generateWithContext migraineItem "Migraine" LLMOutcome.exn
      = GenResult.ok (itemAdvice migraineItem)
          (fallbackMedications migraineItem.suggested_drugs) "Migraine" :=
  (C2_generation_failure_absorbed migraineItem "Migraine" (by decide)).1

/-- C4, counterexample: a well-formed JSON array whose only record is not a
mapping leaves zero valid records after filtering, yet loading succeeds
with an empty store instead of failing as the claim states. -/
theorem C4_counterexample :
    loadData true (FileContent.jsonList [RawRecord.notDict])
      = Except.ok [] ∧
    loadData true (FileContent.jsonList []) = Except.ok [] := by
  exact ⟨rfl, rfl⟩

/-- C4 (amended): loading fails exactly when the path is missing or the
content is not a well-formed JSON list; a raw record is kept if and only if
it is a mapping with a non-empty `condition_name`; and zero valid records
remaining after filtering is not fatal — the loader returns an empty list
of entries. -/
theorem C4_load_failure_characterization :
    (∀ content : FileContent,
      loadData false content = Except.error LoadError.fileNotFound) ∧
    loadData true FileContent.invalidJson
      = Except.error LoadError.jsonDecodeError ∧
    loadData true FileContent.jsonNonList
      = Except.error LoadError.notAList ∧
    (∀ records : List RawRecord, ∃ items : List KBItem,
      loadData true (FileContent.jsonList records) = Except.ok items ∧
      ∀ item : KBItem,
        item ∈ items ↔ RawRecord.dict item ∈ records ∧
          item.condition_name ≠ "") := by
  refine ⟨fun content => rfl, rfl, rfl, fun records =>
    ⟨records.filterMap keepRecord, rfl, fun item => ?_⟩⟩
  rw [List.mem_filterMap]
  constructor
  · rintro ⟨r, hr, hkeep⟩
    cases r with
    | notDict => simp [keepRecord] at hkeep
    | dict it =>
      rw [keepRecord] at hkeep
      by_cases hname : it.condition_name ≠ ""
      · rw [if_pos hname] at hkeep
        cases hkeep
        exact ⟨hr, hname⟩
      · rw [if_neg hname] at hkeep
        cases hkeep
  · rintro ⟨hr, hname⟩
    exact ⟨RawRecord.dict item, hr, by rw [keepRecord, if_pos hname]⟩

/-- C5, counterexample: for "Antacid" the table documents frequency
"thrice daily" and duration "5 days", whose implied quantity is 3 times 5
equals 15, but the stored quantity is 1 — the quantity is not the product
of administrations per day and days. -/
theorem C5_counterexample :
    (getDefaultMedicationDetails "Antacid").frequency = "thrice daily" ∧
    (getDefaultMedicationDetails "Antacid").duration = "5 days" ∧
    impliedQuantity (getDefaultMedicationDetails "Antacid") = some 15 ∧
    (getDefaultMedicationDetails "Antacid").quantity = 1 := by
  decide

/-- C5 (amended): every quantity in the fixed default table is a positive
integer; for the six discrete-dose drugs (Acetaminophen, Ibuprofen,
Cetirizine, Loratadine, Ondansetron, Naproxen) the quantity equals
(administrations per day implied by the frequency) times (days implied by
the duration); for the three container-dispensed drugs (Antacid,
Hydrocortisone Cream, Dextromethorphan Syrup) the quantity is 1 — one
container — even though frequency and duration imply a larger product; and
Loperamide's frequency ("after each loose stool") implies no fixed per-day
count at all (its quantity is 8). -/
theorem C5_quantity_not_always_product :
    medicationDefaults.all (fun p => decide (0 < p.2.quantity)) = true ∧
    (["Acetaminophen", "Ibuprofen", "Cetirizine", "Loratadine",
      "Ondansetron", "Naproxen"].all (fun n =>
        decide (impliedQuantity (getDefaultMedicationDetails n)
          = some (getDefaultMedicationDetails n).quantity))) = true ∧
    (["Antacid", "Hydrocortisone Cream", "Dextromethorphan Syrup"].all
      (fun n =>
        decide ((getDefaultMedicationDetails n).quantity = 1) &&
        decide (1 < (impliedQuantity (getDefaultMedicationDetails n)).getD 0))
      = true) ∧
    impliedPerDay (getDefaultMedicationDetails "Loperamide").frequency
      = none ∧
    (getDefaultMedicationDetails "Loperamide").quantity = 8 ∧
    0 < genericDetails.quantity := by
  refine ⟨by decide, by decide, by decide, by decide, by decide, by decide⟩

/-- C7: a resolved entry whose `suggested_drugs` list is empty skips
generation entirely and yields a success payload with an empty medication
list and no error, on both resolution paths (rehydration and text
fallback). -/
theorem C7_empty_drugs_success :
    (∀ (fc : KBItem) (cn : String) (llm : LLMOutcome),
      fc.suggested_drugs = [] →
      generateWithContext fc cn llm = GenResult.ok (itemAdvice fc) [] cn) ∧
    (∀ (kb : List KBItem) (top : Option String) (rest : List (Option String))
        (llm : LLMOutcome) (t : String) (fc : KBItem),
      conditionByName kb (normalize (metaName top)) = some fc →
      fc.suggested_drugs = [] →
      generate kb (top :: rest) llm t
        = GenResult.ok (itemAdvice fc) [] (metaName top)) ∧
    (∀ (kb : List KBItem) (top : Option String) (rest : List (Option String))
        (llm : LLMOutcome) (t : String) (fc : KBItem),
      conditionByName kb (normalize (metaName top)) = none →
      findBestByText kb t = some fc →
      fc.suggested_drugs = [] →
      generate kb (top :: rest) llm t
        = GenResult.ok (itemAdvice fc) [] (itemConditionName fc)) := by
  have base : ∀ (fc : KBItem) (cn : String) (llm : LLMOutcome),
      fc.suggested_drugs = [] →
      generateWithContext fc cn llm = GenResult.ok (itemAdvice fc) [] cn := by
    intro fc cn llm hempty
    unfold generateWithContext
    rw [if_pos (by simp [List.isEmpty_iff, hempty])]
  refine ⟨base, fun kb top rest llm t fc hfind hempty => ?_,
    fun kb top rest llm t fc hfind htext hempty => ?_⟩
  · rw [generate_rehydrated hfind, base fc (metaName top) llm hempty]
  · rw [generate_unhydrated hfind, htext]
    exact base fc (itemConditionName fc) llm hempty

/-- C7, witness: the Fatigue entry (no suggested drugs) retrieved and
rehydrated yields a success with an empty medication list. -/
theorem C7_witness :
    generate [noDrugItem] [some "Fatigue"] LLMOutcome.exn "tired"
      = GenResult.ok (itemAdvice noDrugItem) []
          (metaName (some "Fatigue")) :=
  C7_empty_drugs_success.2.1 [noDrugItem] (some "Fatigue") [] LLMOutcome.exn
    "tired" noDrugItem (by decide) rfl

/-- C9: the per-drug default formatter is total — for every drug name it
returns details with all of dosage, frequency, timing, duration and
instructions non-empty and a positive quantity; and every name absent from
the fixed table receives exactly the generic record, whose dosage,
frequency, timing and duration are "As directed" and whose quantity is
exactly 1. -/
theorem C9_formatter_total (drug_name : String) :
    (getDefaultMedicationDetails drug_name).dosage ≠ "" ∧
    (getDefaultMedicationDetails drug_name).frequency ≠ "" ∧
    (getDefaultMedicationDetails drug_name).timing ≠ "" ∧
    (getDefaultMedicationDetails drug_name).duration ≠ "" ∧
    (getDefaultMedicationDetails drug_name).instructions ≠ "" ∧
    0 < (getDefaultMedicationDetails drug_name).quantity ∧
    (lookupDetails medicationDefaults drug_name = none →
      getDefaultMedicationDetails drug_name = genericDetails ∧
      genericDetails.dosage = "As directed" ∧
      genericDetails.frequency = "As directed" ∧
      genericDetails.timing = "As directed" ∧
      genericDetails.duration = "As directed" ∧
      genericDetails.quantity = 1) := by
  have hall : ∀ p ∈ medicationDefaults,
      p.2.dosage ≠ "" ∧ p.2.frequency ≠ "" ∧ p.2.timing ≠ "" ∧
      p.2.duration ≠ "" ∧ p.2.instructions ≠ "" ∧ 0 < p.2.quantity := by
    decide
  cases hl : lookupDetails medicationDefaults drug_name with
  | none =>
    have hgen : getDefaultMedicationDetails drug_name = genericDetails := by
      rw [getDefaultMedicationDetails, hl]
      rfl
    rw [hgen]
    refine ⟨by decide, by decide, by decide, by decide, by decide, by decide,
      fun _ => ⟨rfl, by decide, by decide, by decide, by decide, by decide⟩⟩
  | some d =>
    have hd : getDefaultMedicationDetails drug_name = d := by
      rw [getDefaultMedicationDetails, hl]
      rfl
    have hmem := lookupDetails_mem hl
    have hprops := hall (drug_name, d) hmem
    rw [hd]
    exact ⟨hprops.1, hprops.2.1, hprops.2.2.1, hprops.2.2.2.1,
      hprops.2.2.2.2.1, hprops.2.2.2.2.2,
      fun hc => absurd hc (by simp)⟩

/-- C9, witness: a name absent from the table receives the generic
record. -/
theorem C9_witness :
    getDefaultMedicationDetails "Vitamin C" = genericDetails ∧
    genericDetails.quantity = 1 := by
  have h := C9_formatter_total "Vitamin C"
  exact ⟨(h.2.2.2.2.2.2 (by decide)).1, by decide⟩

/-- C3, counterexample: two valid entries whose names normalize to
"common cold"; looking the collision key up returns the second-loaded
entry, not the first as the claim states. -/
theorem C3_counterexample :
    conditionByName [coldItemA, coldItemB] "common cold" = some coldItemB ∧
    coldItemB ≠ coldItemA := by
  constructor
  · decide
  · decide

/-- C3 (amended): in the name-to-entry mapping, a later duplicate
overwrites an earlier one — lookup of a key returns exactly the LAST entry
in load order whose normalized (trimmed, lower-cased) truthy
`condition_name` equals the key, i.e. the unique matching entry followed by
no further matching entry. -/
theorem C3_last_duplicate_wins (kb : List KBItem) (key : String) (e : KBItem) :
    conditionByName kb key = some e ↔
      ∃ pre post, kb = pre ++ e :: post ∧
        (e.condition_name ≠ "" ∧ strLower (strTrim e.condition_name) = key) ∧
        ∀ x ∈ post,
          ¬(x.condition_name ≠ "" ∧ strLower (strTrim x.condition_name) = key) := by
  induction kb using List.reverseRecOn with
  | nil =>
    constructor
    · intro h
      simp [conditionByName] at h
    · rintro ⟨pre, post, hdecomp, -, -⟩
      exact absurd hdecomp (by simp)
  | append_singleton l a ih =>
    rw [conditionByName_append]
    by_cases hc : a.condition_name ≠ "" ∧ strLower (strTrim a.condition_name) = key
    · rw [if_pos hc]
      constructor
      · intro h
        injection h with h
        subst h
        exact ⟨l, [], rfl, hc, by simp⟩
      · rintro ⟨pre, post, hdecomp, he, hpost⟩
        rcases List.eq_nil_or_concat post with rfl | ⟨post2, b, rfl⟩
        · obtain ⟨-, hae⟩ := List.append_inj' hdecomp rfl
          injection hae with hae
          rw [hae]
        · rw [List.concat_eq_append, ← List.cons_append, ← List.append_assoc]
            at hdecomp
          obtain ⟨-, hab⟩ := List.append_inj' hdecomp rfl
          injection hab with hab
          subst hab
          exact absurd hc
            (hpost a (by rw [List.concat_eq_append]; simp))
    · rw [if_neg hc, ih]
      constructor
      · rintro ⟨pre, post, rfl, he, hpost⟩
        refine ⟨pre, post ++ [a], by simp, he, ?_⟩
        intro x hx
        rcases List.mem_append.mp hx with hx | hx
        · exact hpost x hx
        · have hxa : x = a := by simpa using hx
          subst hxa
          exact hc
      · rintro ⟨pre, post, hdecomp, he, hpost⟩
        rcases List.eq_nil_or_concat post with rfl | ⟨post2, b, rfl⟩
        · obtain ⟨-, hae⟩ := List.append_inj' hdecomp rfl
          injection hae with hae
          subst hae
          exact absurd he hc
        · rw [List.concat_eq_append, ← List.cons_append, ← List.append_assoc]
            at hdecomp
          obtain ⟨hl, hab⟩ := List.append_inj' hdecomp rfl
          injection hab with hab
          subst hab
          exact ⟨pre, post2, hl, he, fun x hx =>
            hpost x (by rw [List.concat_eq_append]; exact List.mem_append_left _ hx)⟩

/-- C3, witness: the amended characterization instantiated on the
colliding sample entries — the later entry is the one returned. -/
theorem C3_witness :
    conditionByName [coldItemA, coldItemB] "common cold" = some coldItemB ∨
    conditionByName [coldItemA, coldItemB] "common cold" = some coldItemA := by
  refine Or.inl ((C3_last_duplicate_wins [coldItemA, coldItemB] "common cold"
    coldItemB).mpr ⟨[coldItemA], [], rfl, by decide, by simp⟩)

/-- C6, counterexample: an entry whose (non-empty) `suggested_drugs` list
consists of one record with an empty name yields an EMPTY medication list
on the fallback path; and a duplicated drug name yields two medication
entries for the same name — both parts of the claimed bound fail. -/
theorem C6_counterexample :
    emptyNameDrugItem.suggested_drugs ≠ [] ∧
    generateWithContext emptyNameDrugItem "Mystery" LLMOutcome.exn
      = GenResult.ok "Hydrate." [] "Mystery" ∧
    (fallbackMedications [DrugInfo.mk "Ibuprofen", DrugInfo.mk "Ibuprofen"]).length
      = 2 ∧
    (fallbackMedications [DrugInfo.mk "Ibuprofen", DrugInfo.mk "Ibuprofen"]).all
      (fun m => m.name == "Ibuprofen") = true := by
  refine ⟨by decide, by decide, by decide, by decide⟩

/-- C6 (amended): the fallback path emits exactly one medication per
suggested-drug record with a non-empty name — for each non-empty name `n`
the number of produced medications named `n` equals the number of
suggested-drug records named `n` (so duplicate names yield duplicate
entries, and the bound "at most one per name" holds exactly when names are
not repeated); the list is non-empty iff at least one suggested drug has a
non-empty name (an entry all of whose drug records have empty names yields
an empty list); and every produced medication comes from the default table
applied to some suggested drug's name. -/
theorem C6_fallback_cardinality (drugs : List DrugInfo) :
    (fallbackMedications drugs).length
      = (drugs.filter (fun d => !(d.name == ""))).length ∧
    (∀ n : String, n ≠ "" →
      ((fallbackMedications drugs).filter (fun m => m.name == n)).length
        = (drugs.filter (fun d => d.name == n)).length) ∧
    ((∃ d ∈ drugs, d.name ≠ "") → fallbackMedications drugs ≠ []) ∧
    (∀ m ∈ fallbackMedications drugs, ∃ d ∈ drugs, d.name ≠ "" ∧
      m = withName d.name (getDefaultMedicationDetails d.name)) ∧
    (∀ (fc : KBItem) (cn : String), fc.suggested_drugs = drugs → drugs ≠ [] →
      generateWithContext fc cn LLMOutcome.exn
        = GenResult.ok (itemAdvice fc) (fallbackMedications drugs) cn) := by
  refine ⟨?_, ?_, ?_, ?_, ?_⟩
  · rw [fallbackMedications_eq_map_filter, List.length_map]
  · intro n hn
    rw [fallbackMedications_eq_map_filter, List.filter_map, List.length_map,
      List.filter_filter]
    congr 1
    apply List.filter_congr
    intro d hd
    by_cases hdn : d.name = n
    · subst hdn
      have hne : (d.name == "") = false := by
        simp only [beq_eq_false_iff_ne]
        exact hn
      simp [Function.comp, withName, hne]
    · have hne2 : (d.name == n) = false := by
        simp only [beq_eq_false_iff_ne]
        exact hdn
      simp [Function.comp, withName, hne2]
  · rintro ⟨d, hd, hdn⟩ hnil
    rw [fallbackMedications_eq_map_filter, List.map_eq_nil_iff,
      List.filter_eq_nil_iff] at hnil
    exact absurd (by simpa using hdn) (hnil d hd)
  · intro m hm
    rw [fallbackMedications_eq_map_filter] at hm
    obtain ⟨d, hd, rfl⟩ := List.mem_map.mp hm
    obtain ⟨hdm, hdn⟩ := List.mem_filter.mp hd
    exact ⟨d, hdm, by simpa using hdn, rfl⟩
  · intro fc cn hfc hnil
    rw [← hfc] at hnil ⊢
    exact generateWithContext_fallback fc cn LLMOutcome.exn hnil
      (by intro ms hc; cases hc)

/-- C6, witness: a single validly named drug yields a non-empty fallback
list. -/
theorem C6_witness :
    fallbackMedications [DrugInfo.mk "Naproxen"] ≠ [] :=
  (C6_fallback_cardinality [DrugInfo.mk "Naproxen"]).2.2.1
    ⟨DrugInfo.mk "Naproxen", by simp, by decide⟩

/-- C8, counterexample: a knowledge base whose first entry matches the
query only by symptom and whose second entry matches by condition name.
The claimed interleaved scan (first entry matching by either criterion)
would return the first entry — and the spec-worded scan does — but the
implementation runs a complete name pass before any symptom check and
returns the second entry. -/
theorem C8_counterexample :
    findBestByText [coughOnlyItem, fluNameItem] "cough and flu"
      = some fluNameItem ∧
    findBestByTextSpec [coughOnlyItem, fluNameItem] "cough and flu"
      = some coughOnlyItem ∧
    symptomHit (strLower "cough and flu") coughOnlyItem ∧
    coughOnlyItem ≠ fluNameItem := by
  refine ⟨by decide, by decide, by decide, by decide⟩

/-- C8 (amended): the linear fallback scan is two sequential passes, with
condition-name matches taking priority over symptom matches anywhere in the
knowledge base: it returns `e` iff either `e` is the first entry in
knowledge-base order whose non-empty lower-cased condition name is a
substring of the lower-cased query, or no entry at all matches by condition
name and `e` is the first entry having a non-empty symptom whose
lower-casing is a substring of the lower-cased query. -/
theorem C8_two_pass_first_match (kb : List KBItem) (text : String)
    (e : KBItem) :
    findBestByText kb text = some e ↔
      ((∃ pre post, kb = pre ++ e :: post ∧ nameHit (strLower text) e ∧
          ∀ x ∈ pre, ¬ nameHit (strLower text) x) ∨
       ((∀ x ∈ kb, ¬ nameHit (strLower text) x) ∧
        ∃ pre post, kb = pre ++ e :: post ∧ symptomHit (strLower text) e ∧
          ∀ x ∈ pre, ¬ symptomHit (strLower text) x)) := by
  unfold findBestByText
  cases hn : findByName (strLower text) kb with
  | some a =>
    constructor
    · intro he
      injection he with he
      subst he
      exact Or.inl (findByName_eq_some_iff.mp hn)
    · rintro (hname | ⟨hnone, -⟩)
      · rw [← findByName_eq_some_iff.mpr hname, hn]
      · rw [findByName_eq_none_iff.mpr hnone] at hn
        cases hn
  | none =>
    have hnone := findByName_eq_none_iff.mp hn
    constructor
    · intro hs
      exact Or.inr ⟨hnone, findBySymptom_eq_some_iff.mp hs⟩
    · rintro (⟨pre, post, rfl, he, -⟩ | ⟨-, hsym⟩)
      · exact absurd he (hnone e (by simp))
      · exact findBySymptom_eq_some_iff.mpr hsym

/-- C8, witness: the amended characterization instantiated — a name match
found by the scan on a singleton knowledge base. -/
theorem C8_witness :
    findBestByText [fluNameItem] "flu" = some fluNameItem :=
  (C8_two_pass_first_match [fluNameItem] "flu" fluNameItem).mpr
    (Or.inl ⟨[], [], rfl, by decide, by simp⟩)

/-- C10: for every valid (truthy-named) entry of the loaded knowledge
base, the indexed document built for it carries the raw `condition_name`
as metadata; normalizing that metadata and looking it up in the
name-to-entry map always succeeds, returning some valid entry with the
same normalized name; hence `generate` on a fresh index's top hit for that
document always takes the rehydration path (never the text fallback). -/
theorem C10_fresh_index_rehydrates (kb : List KBItem) (e : KBItem)
    (he : e ∈ kb) (hv : e.condition_name ≠ "") :
    docMetadataName e = e.condition_name ∧
    normalize (docMetadataName e) = strLower (strTrim e.condition_name) ∧
    (∃ e2, conditionByName kb (normalize (docMetadataName e)) = some e2 ∧
      e2 ∈ kb ∧ e2.condition_name ≠ "" ∧
      strLower (strTrim e2.condition_name)
        = strLower (strTrim e.condition_name)) ∧
    ∀ (rest : List (Option String)) (llm : LLMOutcome) (t : String),
      ∃ e2, generate kb (some (docMetadataName e) :: rest) llm t
        = generateWithContext e2 (docMetadataName e) llm := by
  have hdoc : docMetadataName e = e.condition_name := by
    rw [docMetadataName, if_neg hv]
  have hnorm : normalize (docMetadataName e)
      = strLower (strTrim e.condition_name) := by
    rw [hdoc, normalize, if_neg hv]
  have hsome := conditionByName_isSome he hv
  cases hfind : conditionByName kb (strLower (strTrim e.condition_name)) with
  | none => exact absurd hfind hsome
  | some e2 =>
    obtain ⟨hmem, hne, hkey⟩ := conditionByName_mem hfind
    refine ⟨hdoc, hnorm, ⟨e2, by rw [hnorm]; exact hfind, hmem, hne, hkey⟩,
      fun rest llm t => ⟨e2, ?_⟩⟩
    have hfind2 : conditionByName kb
        (normalize (metaName (some (docMetadataName e)))) = some e2 := by
      show conditionByName kb (normalize (docMetadataName e)) = some e2
      rw [hnorm]
      exact hfind
    exact generate_rehydrated hfind2

/-- C10, witness: rehydration of the Migraine entry's document metadata
succeeds on a singleton knowledge base. -/
theorem C10_witness :
    conditionByName [migraineItem] (normalize (docMetadataName migraineItem))
      ≠ none := by
  have h := C10_fresh_index_rehydrates [migraineItem] migraineItem (by simp)
    (by decide)
  obtain ⟨-, -, ⟨e2, h1, -⟩, -⟩ := h
  rw [h1]
  simp

end RAG
